import Mathlib

/-!
# Verification of the work-stats report pipeline

A shallow embedding, in Lean 4, of the report-aggregation and
tabular-rendering pipeline of the `work-stats` tool (`main.go`):

* the styled-grid builder (the sheet-data loop of `write`),
* the flat-file CSV sink (Go `encoding/csv` writer semantics) and a model
  of standard CSV re-parsing (Go `encoding/csv` reader semantics),
* the accumulator-updating `write` step with its fail-fast file phase,
* the Google-Sheets sink protocol (`createSheet`, `appendToSheet`) over a
  small model of the remote spreadsheet server,
* the spreadsheet-reference locator of `main` (prefix/suffix trimming plus
  the `/spreadsheets/d/([a-zA-Z0-9-_]+)` identifier extraction).

Tables are `List (List String)`: an ordered list of rows, each an ordered
list of string cells, exactly as produced by the data-source collaborators.
-/

namespace WorkStats

/-! ## Styled grid model (sheets.CellData / sheets.RowData)

Only the fields `main.go` actually sets are modelled: the string value,
the bold flag, and the optional background color. Colors are kept as exact
rationals; the program only ever stores the two literal constants. -/

structure Color where
  red : Rat
  green : Rat
  blue : Rat
  deriving DecidableEq, Repr

/-- The background used for `Total` rows (`Red: 0.92, Green: 0.92, Blue: 0.92`;
0.92 = 23/25 exactly, kept in lowest terms so that equality computes). -/
def totalColor : Color := ⟨Rat.mk' 23 25, Rat.mk' 23 25, Rat.mk' 23 25⟩

/-- The background used for `Subtotal` rows (`Red: 0.96, Green: 0.96,
Blue: 0.96`; 0.96 = 24/25 exactly). -/
def subtotalColor : Color := ⟨Rat.mk' 24 25, Rat.mk' 24 25, Rat.mk' 24 25⟩

structure CellData where
  value : String
  bold : Bool
  background : Option Color
  deriving DecidableEq, Repr

structure RowData where
  values : List CellData
  deriving DecidableEq, Repr

/-- The `total` / `subtotal` flags computed inside the cell loop of `write`:
`if len(row) >= 1 { total = row[0] == "Total"; subtotal = row[0] == "Subtotal" }`.
For an empty row both remain `false`. -/
def rowFlags (row : List String) : Bool × Bool :=
  match row with
  | [] => (false, false)
  | c :: _ => (c == "Total", c == "Subtotal")

/-- One `sheets.CellData` as built by `write` for cell `cell` of row `row`
at row index `i`: bold iff `i == 0 || total || subtotal`; background
`subtotalColor` if `subtotal`, else `totalColor` if `total`, else unset. -/
def mkCell (i : Nat) (row : List String) (cell : String) : CellData :=
  let total := (rowFlags row).1
  let subtotal := (rowFlags row).2
  { value := cell
    bold := (i == 0) || total || subtotal
    background :=
      if subtotal then some subtotalColor
      else if total then some totalColor
      else none }

/-- The styled-grid builder: the `for i, row := range cells` loop of `write`,
producing one `sheets.RowData` per input row. -/
def buildRowData (cells : List (List String)) : List RowData :=
  cells.enum.map (fun p => { values := p.2.map (mkCell p.1 p.2) })

/-! ## Flat-file sink: Go `encoding/csv` writer semantics

`write` hands each row to `csv.Writer.Write` with the default comma
delimiter and `UseCRLF = false`. A field is quoted when it contains a
comma, a double quote, CR or LF, or starts with a whitespace character;
quotes inside a quoted field are doubled; records end with `\n`. -/

/-- Go `Writer.fieldNeedsQuotes` (default comma, ASCII whitespace check). -/
def needsQuotes (f : List Char) : Bool :=
  match f with
  | [] => false
  | c :: _ =>
      f.any (fun ch => ch == ',' || ch == '"' || ch == '\r' || ch == '\n')
        || c.isWhitespace

/-- Double every `"` character, as the Go writer does inside quoted fields. -/
def escapeQuotes : List Char → List Char
  | [] => []
  | c :: rest =>
      if c = '"' then '"' :: '"' :: escapeQuotes rest
      else c :: escapeQuotes rest

/-- One serialized field: quoted (with doubled quotes) when needed. -/
def writeField (f : List Char) : List Char :=
  if needsQuotes f then '"' :: (escapeQuotes f ++ ['"']) else f

/-- The fields after the first: the Go writer emits a comma before each. -/
def writeFieldsRest : List String → List Char
  | [] => []
  | s :: rest => ',' :: (writeField s.data ++ writeFieldsRest rest)

/-- One serialized record, as the Go `Writer.Write` loop emits it: the
first field, a comma before every further field, then the `\n`
terminator (`UseCRLF = false`). -/
def writeRecord (row : List String) : List Char :=
  (match row with
   | [] => []
   | s :: rest => writeField s.data ++ writeFieldsRest rest) ++ ['\n']

/-- The content the flat-file sink writes for one report: every row in
order through the CSV writer (the first loop of `write`). -/
def csvWrite (t : List (List String)) : List Char :=
  (t.map writeRecord).flatten

/-! ## Standard CSV re-parsing: Go `encoding/csv` reader semantics

Default reader configuration: comma delimiter, no comments, quoted fields
with doubled-quote escapes, blank lines skipped, every `\r\n` normalized
to `\n`, a bare quote in a non-quoted field and a stray character after a
closing quote are errors, an unterminated quote at EOF is an error, and
all records must have the same number of fields as the first record
(`FieldsPerRecord = 0`). Errors are `none`. -/

inductive CSVMode
  | fieldStart
  | unquoted
  | quoted
  | postQuote
  deriving DecidableEq, Repr

structure CSVState where
  table : List (List String)
  record : List String
  field : List Char
  mode : CSVMode
  deriving DecidableEq, Repr

/-- One character step of the CSV reader; `none` is a parse error. -/
def csvStep (st : CSVState) (c : Char) : Option CSVState :=
  match st.mode with
  | .fieldStart =>
      if c = '"' then some { st with mode := .quoted, field := [] }
      else if c = ',' then some { st with record := st.record ++ [""], field := [] }
      else if c = '\n' then
        if st.record.isEmpty then some { st with field := [] }
        else some { table := st.table ++ [st.record ++ [""]],
                    record := [], field := [], mode := .fieldStart }
      else some { st with mode := .unquoted, field := [c] }
  | .unquoted =>
      if c = '"' then none
      else if c = ',' then
        some { st with record := st.record ++ [String.mk st.field],
                       field := [], mode := .fieldStart }
      else if c = '\n' then
        some { table := st.table ++ [st.record ++ [String.mk st.field]],
               record := [], field := [], mode := .fieldStart }
      else some { st with field := st.field ++ [c] }
  | .quoted =>
      if c = '"' then some { st with mode := .postQuote }
      else some { st with field := st.field ++ [c] }
  | .postQuote =>
      if c = '"' then some { st with mode := .quoted, field := st.field ++ ['"'] }
      else if c = ',' then
        some { st with record := st.record ++ [String.mk st.field],
                       field := [], mode := .fieldStart }
      else if c = '\n' then
        some { table := st.table ++ [st.record ++ [String.mk st.field]],
               record := [], field := [], mode := .fieldStart }
      else none

/-- End of input: flush any pending record; an open quote is an error. -/
def csvFinalize (st : CSVState) : Option (List (List String)) :=
  match st.mode with
  | .quoted => none
  | .fieldStart =>
      if st.record.isEmpty then some st.table
      else some (st.table ++ [st.record ++ [""]])
  | .unquoted => some (st.table ++ [st.record ++ [String.mk st.field]])
  | .postQuote => some (st.table ++ [st.record ++ [String.mk st.field]])

def runCSV : CSVState → List Char → Option (List (List String))
  | st, [] => csvFinalize st
  | st, c :: rest =>
      match csvStep st c with
      | none => none
      | some st' => runCSV st' rest

/-- The reader's line-ending normalization: every `\r\n` becomes `\n`. -/
def normalizeCRLF : List Char → List Char
  | [] => []
  | [c] => [c]
  | c1 :: c2 :: rest =>
      if c1 = '\r' ∧ c2 = '\n' then '\n' :: normalizeCRLF rest
      else c1 :: normalizeCRLF (c2 :: rest)

/-- `FieldsPerRecord = 0`: all records must match the first record's width. -/
def sameLengths : List (List String) → Bool
  | [] => true
  | r :: rs => rs.all (fun r2 => r2.length == r.length)

def csvInit : CSVState := ⟨[], [], [], .fieldStart⟩

/-- Standard CSV parsing of a whole input (Go `csv.Reader.ReadAll`). -/
def csvRead (s : List Char) : Option (List (List String)) :=
  match runCSV csvInit (normalizeCRLF s) with
  | none => none
  | some table => if sameLengths table then some table else none

/-! ## The `write` step: fail-fast file phase, then accumulator update

`write(ctx, dir, data, rowData)` first writes one `<name>.csv` per entry of
`data`, returning the first error; only when every file succeeded does it
build styled rows and store them into the accumulator map `rowData`.
File-system failures are modelled by two oracles: `createOk name` for
`os.Create` and `writeRowOk name i` for `csv.Writer.Write` of row `i`. -/

/-- Go map accumulator, as an association list with unique keys:
`m[k] = v` assignment. -/
def setKey {α : Type} : List (String × α) → String → α → List (String × α)
  | [], k, v => [(k, v)]
  | (k', v') :: rest, k, v =>
      if k' = k then (k, v) :: rest else (k', v') :: setKey rest k v

/-- Go map lookup: `m[k]` as an `Option`. -/
def lookupKey {α : Type} : List (String × α) → String → Option α
  | [], _ => none
  | (k', v') :: rest, k => if k' = k then some v' else lookupKey rest k

abbrev Acc := List (String × List RowData)

def pathJoin (dir name : String) : String := dir ++ "/" ++ name ++ ".csv"

/-- The per-file part of the first loop of `write`: `os.Create`, then one
`writer.Write(row)` per row; the first failure is returned. -/
def writeOneFile (createOk : String → Bool) (writeRowOk : String → Nat → Bool)
    (name : String) (cells : List (List String)) : Option String :=
  if !createOk name then some ("create " ++ name)
  else if (List.range cells.length).all (fun i => writeRowOk name i) then none
  else some ("write " ++ name)

/-- The first loop of `write`: write all files, collecting full paths;
return the first error encountered. -/
def writeFilesPhase (createOk : String → Bool) (writeRowOk : String → Nat → Bool)
    (dir : String) : List (String × List (List String)) → Except String (List String)
  | [] => .ok []
  | (name, cells) :: rest =>
      match writeOneFile createOk writeRowOk name cells with
      | some e => .error e
      | none =>
          match writeFilesPhase createOk writeRowOk dir rest with
          | .error e => .error e
          | .ok fs => .ok (pathJoin dir name :: fs)

structure WriteResult where
  rowData : Acc
  err : Option String
  filenames : List String
  deriving Repr

/-- The whole `write` step. On a file-phase error it returns immediately
with the accumulator untouched; otherwise it stores the styled rows of
every report of the batch into the accumulator (`rowData[title] = rd`). -/
def write (createOk : String → Bool) (writeRowOk : String → Nat → Bool)
    (dir : String) (data : List (String × List (List String))) (rowData : Acc) :
    WriteResult :=
  match writeFilesPhase createOk writeRowOk dir data with
  | .error e => { rowData := rowData, err := some e, filenames := [] }
  | .ok fs =>
      { rowData := data.foldl (fun acc p => setKey acc p.1 (buildRowData p.2)) rowData
        err := none
        filenames := fs }

/-! ## Remote spreadsheet sink (Google Sheets model)

The server holds a list of tabs (title and server-assigned numeric sheet
id) and a fresh-id counter. A `BatchUpdate` applies its requests in order;
`AddSheet` appends a tab with a fresh id, `AppendCells` leaves the tab
list unchanged. The response's `UpdatedSpreadsheet.Sheets` is the server's
tab list after the call. -/

structure SSheet where
  title : String
  sheetId : Nat
  deriving DecidableEq, Repr

structure Server where
  sheets : List SSheet
  nextId : Nat
  deriving DecidableEq, Repr

inductive SRequest
  | addSheet (title : String) (frozenRowCount : Nat)
  | appendCells (sheetId : Nat) (rows : List RowData) (fields : String)
  deriving DecidableEq, Repr

def applyRequest (st : Server) (r : SRequest) : Server :=
  match r with
  | .addSheet title _ =>
      { sheets := st.sheets ++ [⟨title, st.nextId⟩], nextId := st.nextId + 1 }
  | .appendCells _ _ _ => st

def batchUpdate (st : Server) (reqs : List SRequest) : Server :=
  reqs.foldl applyRequest st

structure AppendTrace where
  calls : List (List SRequest)
  final : Server
  deriving Repr

/-- `appendToSheet`: phase 1 issues one batched `AddSheet` (frozen header
row) per accumulator entry; phase 2, built from the returned updated
spreadsheet, issues one `AppendCells` per tab of that spreadsheet, with
`rowData[sheet.Properties.Title]` (the Go zero value `nil` — here `[]` —
when the title is not in the accumulator) and `Fields = "*"`. -/
def appendToSheet (rowData : Acc) (st : Server) : AppendTrace :=
  let createRequests := rowData.map (fun p => SRequest.addSheet p.1 1)
  let st1 := batchUpdate st createRequests
  let dataRequests := st1.sheets.map (fun sh =>
    SRequest.appendCells sh.sheetId ((lookupKey rowData sh.title).getD []) "*")
  let st2 := batchUpdate st1 dataRequests
  { calls := [createRequests, dataRequests], final := st2 }

/-! ## Create mode (`createSheet`) -/

structure GridData where
  rowData : List RowData
  deriving DecidableEq, Repr

structure Sheet where
  title : String
  frozenRowCount : Nat
  data : List GridData
  deriving DecidableEq, Repr

structure Spreadsheet where
  title : String
  sheets : List Sheet
  deriving DecidableEq, Repr

structure Date where
  month : Nat
  day : Nat
  year : Nat

/-- Go `start.Format("01-02-2006")`: zero-padded month and day, then year. -/
def pad2 (n : Nat) : String := if n < 10 then "0" ++ toString n else toString n

def formatDate (d : Date) : String :=
  pad2 d.month ++ "-" ++ pad2 d.day ++ "-" ++ toString d.year

/-- `createSheet`: one tab per accumulator entry (title, frozen first row,
grid pre-populated with the styled rows), under a title embedding the
run's since date, all in the single `Spreadsheets.Create` payload. -/
def mkTab (p : String × List RowData) : Sheet :=
  { title := p.1, frozenRowCount := 1, data := [⟨p.2⟩] }

/-- The single `Spreadsheets.Create` payload built by `createSheet`. -/
def createSheet (start : Date) (rowData : Acc) : Spreadsheet :=
  { title := "Work Stats (as of " ++ formatDate start ++ ")"
    sheets := rowData.map mkTab }

/-! ## Spreadsheet locator (`main`, lines 67–88 and 135–153)

For a reference that is neither `""` nor `"new"`, `main` trims the
`https://docs.google.com` prefix and the `edit#gid=0` suffix, then runs
`regexp.FindStringSubmatch` with `/spreadsheets/d/(?P<ID>([a-zA-Z0-9-_]+))`.
When the regex does not match, `FindStringSubmatch` returns a nil slice and
the subsequent `match[i]` index panics (index out of range) — modelled by
`panicked` — so the `log.Fatalf` guard below it is never reached on that
path; `fatalError` models that (dead) clean-exit branch. -/

def isIDChar (c : Char) : Bool := c.isAlpha || c.isDigit || c == '-' || c == '_'

/-- The maximal leading run of identifier characters (the greedy `+`). -/
def takeIDRun : List Char → List Char
  | [] => []
  | c :: rest => if isIDChar c then c :: takeIDRun rest else []

/-- Match a literal prefix, returning the remainder. -/
def dropLit : List Char → List Char → Option (List Char)
  | [], s => some s
  | _ :: _, [] => none
  | p :: ps, c :: cs => if c = p then dropLit ps cs else none

/-- Leftmost match of `/spreadsheets/d/([a-zA-Z0-9-_]+)`, returning the
capture group: the first position where the literal is followed by at
least one identifier character, taking the maximal run. -/
def findIDMatch : List Char → Option (List Char)
  | [] => none
  | c :: cs =>
      match dropLit "/spreadsheets/d/".data (c :: cs) with
      | some rest =>
          let run := takeIDRun rest
          if run.isEmpty then findIDMatch cs else some run
      | none => findIDMatch cs

/-- Go `strings.TrimPrefix`. -/
def trimPrefix (s p : List Char) : List Char :=
  if p.isPrefixOf s then s.drop p.length else s

/-- Go `strings.TrimSuffix`. -/
def trimSuffix (s suf : List Char) : List Char :=
  if suf.isSuffixOf s then s.take (s.length - suf.length) else s

inductive SheetsRef
  | absent
  | newSheet
  | existing (id : String)
  | fatalError (msg : String)
  | panicked
  deriving DecidableEq, Repr

/-- The combined locator behavior of `main`: `""` skips the remote sink,
`"new"` creates a fresh spreadsheet, anything else goes through trim +
regex extraction — panicking on a failed match (nil `match[1]`), and
reaching the `log.Fatalf` branch only if the extracted id were empty. -/
def parseSheetsFlag (ref : String) : SheetsRef :=
  if ref = "" then .absent
  else if ref = "new" then .newSheet
  else
    let trimmed := trimSuffix (trimPrefix ref.data "https://docs.google.com".data)
      "edit#gid=0".data
    match findIDMatch trimmed with
    | none => .panicked
    | some run =>
        let id := String.mk run
        if id = "" then .fatalError ("Unable to determine spreadsheet ID for " ++ ref)
        else .existing id

/-! ## Theorems -/

theorem buildRowData_length (cells : List (List String)) :
    (buildRowData cells).length = cells.length := by
  simp [buildRowData]

theorem buildRowData_getElem? (cells : List (List String)) (i : Nat) :
    (buildRowData cells)[i]?
      = (cells[i]?).map (fun row => { values := row.map (mkCell i row) }) := by
  simp [buildRowData, List.getElem?_map, List.getElem?_enum]
  cases cells[i]? <;> rfl

theorem mkCell_value (i : Nat) (row : List String) (cell : String) :
    (mkCell i row cell).value = cell := rfl

theorem totalColor_ne_subtotalColor : totalColor ≠ subtotalColor := by decide

/-- Claim C6: the styled-grid builder is structure-preserving: same number
of rows, same number of cells per row, cell values identical and in the
same order (the second conjunct implies all of row count, per-row cell
count, values and order at once). -/
theorem build_structure_preserving (cells : List (List String)) :
    (buildRowData cells).length = cells.length ∧
    (buildRowData cells).map (fun rd => rd.values.map CellData.value) = cells := by
  refine ⟨buildRowData_length cells, ?_⟩
  simp only [buildRowData, List.map_map]
  have h : ∀ p : Nat × List String,
      ((fun rd => rd.values.map CellData.value) ∘
        fun p : Nat × List String => RowData.mk (p.2.map (mkCell p.1 p.2))) p = p.2 := by
    intro p
    have h2 : p.2.map (CellData.value ∘ mkCell p.1 p.2) = p.2.map id :=
      List.map_congr_left (fun a _ => rfl)
    simpa [List.map_map] using h2
  rw [List.map_congr_left (fun p _ => h p)]
  exact List.enum_map_snd cells

/-- Claim C8: a zero-cell row is harmless: the total/subtotal flags stay
`false` (the Data treatment; `row[0]` is only read behind the
`len(row) >= 1` guard) and the builder produces a styled row with no
cells, so no bold or background appears anywhere in it. -/
theorem empty_row_safe (cells : List (List String)) (i : Nat)
    (h : cells[i]? = some []) :
    rowFlags [] = (false, false) ∧ (buildRowData cells)[i]? = some ⟨[]⟩ := by
  refine ⟨rfl, ?_⟩
  rw [buildRowData_getElem?, h]
  rfl

/-- Witness for C8 at the one-empty-row report. -/
theorem empty_row_safe_witness :
    rowFlags [] = (false, false) ∧ (buildRowData [[]])[0]? = some ⟨[]⟩ :=
  empty_row_safe [[]] 0 rfl

/-- Claim C2 is false on the code: for the report `[["Total"]]` the single
cell sits in the header row (index 0), yet the builder gives it the
`Total` background color, where the claim requires a header row to have no
background regardless of its first cell. -/
theorem header_background_counterexample :
    (buildRowData [["Total"]]).map (fun rd => rd.values.map CellData.background)
      = [[some totalColor]] ∧ some totalColor ≠ (none : Option Color) := by
  exact ⟨rfl, Option.some_ne_none totalColor⟩

/-- Claim C2 (amended): in the builder's output, a cell is bold iff its row
is the header row or its row's first cell is `"Total"` or `"Subtotal"`;
the background color is determined by the first cell alone, regardless of
the row index — `"Subtotal"` gives the 0.96-gray, `"Total"` the
0.92-gray, anything else (including an empty row) no background. -/
theorem styled_cell_format (cells : List (List String)) (i : Nat)
    (row : List String) (rd : RowData) (cd : CellData)
    (hrow : cells[i]? = some row)
    (hrd : (buildRowData cells)[i]? = some rd)
    (hcd : cd ∈ rd.values) :
    (cd.bold = true ↔ (i = 0 ∨ row.head? = some "Total" ∨ row.head? = some "Subtotal")) ∧
    (cd.background = some subtotalColor ↔ row.head? = some "Subtotal") ∧
    (cd.background = some totalColor ↔ row.head? = some "Total") ∧
    (cd.background = none ↔ (row.head? ≠ some "Total" ∧ row.head? ≠ some "Subtotal")) := by
  rw [buildRowData_getElem?, hrow] at hrd
  simp only [Option.map_some', Option.some_inj] at hrd
  subst hrd
  simp only [List.mem_map] at hcd
  obtain ⟨cell, hcell, rfl⟩ := hcd
  cases row with
  | nil => cases hcell
  | cons c rest =>
      simp only [mkCell, rowFlags, List.head?_cons, Option.some_inj]
      by_cases hsub : c = "Subtotal"
      · subst hsub
        simp [totalColor_ne_subtotalColor, Ne.symm totalColor_ne_subtotalColor]
      · by_cases htot : c = "Total"
        · subst htot
          simp [hsub, totalColor_ne_subtotalColor]
        · simp [hsub, htot]

/-- Witness for C2 (amended) at a data row whose first cell is `"Total"`. -/
theorem styled_cell_format_witness :
    ((⟨"Total", true, some totalColor⟩ : CellData).bold = true ↔
      (1 = 0 ∨ (["Total"] : List String).head? = some "Total" ∨
        (["Total"] : List String).head? = some "Subtotal")) ∧
    ((⟨"Total", true, some totalColor⟩ : CellData).background = some subtotalColor ↔
      (["Total"] : List String).head? = some "Subtotal") ∧
    ((⟨"Total", true, some totalColor⟩ : CellData).background = some totalColor ↔
      (["Total"] : List String).head? = some "Total") ∧
    ((⟨"Total", true, some totalColor⟩ : CellData).background = none ↔
      ((["Total"] : List String).head? ≠ some "Total" ∧
        (["Total"] : List String).head? ≠ some "Subtotal")) :=
  styled_cell_format [["a"], ["Total"]] 1 ["Total"]
    ⟨[⟨"Total", true, some totalColor⟩]⟩ ⟨"Total", true, some totalColor⟩
    rfl (by decide) (by decide)

theorem lookupKey_setKey_ne {α : Type} (m : List (String × α)) (k t : String)
    (v : α) (h : t ≠ k) : lookupKey (setKey m k v) t = lookupKey m t := by
  induction m with
  | nil =>
      simp only [setKey, lookupKey]
      rw [if_neg (fun h' => h h'.symm)]
  | cons p rest ih =>
      obtain ⟨k', v'⟩ := p
      by_cases hk : k' = k
      · subst hk
        simp only [setKey, if_pos rfl, lookupKey]
        rw [if_neg (fun h' => h h'.symm), if_neg (fun h' => h h'.symm)]
      · simp only [setKey, if_neg hk, lookupKey]
        by_cases hk' : k' = t
        · rw [if_pos hk', if_pos hk']
        · rw [if_neg hk', if_neg hk', ih]

theorem lookupKey_buildFold_not_mem (t : String) :
    ∀ (data : List (String × List (List String))) (acc : Acc),
    t ∉ data.map Prod.fst →
    lookupKey (data.foldl (fun acc p => setKey acc p.1 (buildRowData p.2)) acc) t
      = lookupKey acc t := by
  intro data
  induction data with
  | nil => intro acc _; rfl
  | cons p rest ih =>
      intro acc ht
      simp only [List.map_cons, List.mem_cons, not_or] at ht
      rw [List.foldl_cons, ih _ ht.2, lookupKey_setKey_ne _ _ _ _ ht.1]

/-- Claim C9: if the write step reports an error (any file-creation or
row-write failure in the flat-file phase), the accumulator is left exactly
as it was: styled rows are added only after every flat file of the batch
has been written successfully. -/
theorem write_error_preserves_acc (createOk : String → Bool)
    (writeRowOk : String → Nat → Bool) (dir : String)
    (data : List (String × List (List String))) (acc : Acc)
    (herr : (write createOk writeRowOk dir data acc).err.isSome = true) :
    (write createOk writeRowOk dir data acc).rowData = acc := by
  cases h : writeFilesPhase createOk writeRowOk dir data with
  | error e => simp [write, h]
  | ok fs => simp [write, h] at herr

/-- Witness for C9: a failed `os.Create` for report `r` leaves the (empty)
accumulator empty. -/
theorem write_error_preserves_acc_witness :
    (write (fun _ => false) (fun _ _ => true) "tmp" [("r", [["a"]])] []).err.isSome = true ∧
    (write (fun _ => false) (fun _ _ => true) "tmp" [("r", [["a"]])] []).rowData = [] :=
  ⟨rfl, write_error_preserves_acc _ _ _ _ _ rfl⟩

/-- Claim C10: frame property of the write step — a successful call changes
the accumulator only at keys that are report names of the input batch;
every other key reads exactly as before. -/
theorem write_frame (createOk : String → Bool) (writeRowOk : String → Nat → Bool)
    (dir : String) (data : List (String × List (List String))) (acc : Acc)
    (hok : (write createOk writeRowOk dir data acc).err = none)
    (t : String) (ht : t ∉ data.map Prod.fst) :
    lookupKey (write createOk writeRowOk dir data acc).rowData t = lookupKey acc t := by
  cases h : writeFilesPhase createOk writeRowOk dir data with
  | error e => simp [write, h] at hok
  | ok fs =>
      simp only [write, h]
      exact lookupKey_buildFold_not_mem t data acc ht

/-- Witness for C10: writing batch `a` leaves the entry for `b` unchanged. -/
theorem write_frame_witness :
    lookupKey (write (fun _ => true) (fun _ _ => true) "tmp"
      [("a", [["x"]])] [("b", [])]).rowData "b" = lookupKey [("b", [])] "b" :=
  write_frame (fun _ => true) (fun _ _ => true) "tmp" [("a", [["x"]])] [("b", [])]
    rfl "b" (by decide)

theorem mkTab_title_mem (rowData : Acc) (sh : Sheet)
    (h : sh ∈ rowData.map mkTab) :
    sh.title ∈ rowData.map Prod.fst ∧ sh.frozenRowCount = 1 := by
  simp only [List.mem_map] at h ⊢
  obtain ⟨p, hp, rfl⟩ := h
  exact ⟨⟨p, hp, rfl⟩, rfl⟩

theorem mkTab_filter_nil (rowData : Acc) (name : String)
    (h : name ∉ rowData.map Prod.fst) :
    (rowData.map mkTab).filter (fun sh => sh.title = name) = [] := by
  rw [List.filter_eq_nil_iff]
  intro sh hsh
  simp only [decide_eq_true_eq]
  intro hti
  exact h (hti ▸ (mkTab_title_mem rowData sh hsh).1)

theorem createSheet_unique : ∀ (rowData : Acc),
    (rowData.map Prod.fst).Nodup → ∀ name, name ∈ rowData.map Prod.fst →
    ((rowData.map mkTab).filter (fun sh => sh.title = name)).length = 1 ∧
    (∀ sh ∈ rowData.map mkTab, sh.title = name →
      sh.data = [⟨(lookupKey rowData name).getD []⟩]) := by
  intro rowData
  induction rowData with
  | nil => intro _ name hm; cases hm
  | cons p rest ih =>
      intro hnd name hm
      obtain ⟨kk, v⟩ := p
      simp only [List.map_cons, List.nodup_cons, List.mem_cons] at hnd hm
      by_cases hnk : name = kk
      · subst hnk
        refine ⟨?_, ?_⟩
        · simp only [List.map_cons, List.filter_cons]
          rw [if_pos (by simp [mkTab]), mkTab_filter_nil rest name hnd.1]
          rfl
        · intro sh hsh hti
          rcases List.mem_cons.1 hsh with hhd | htl
          · subst hhd
            simp [mkTab, lookupKey]
          · exact absurd (hti ▸ (mkTab_title_mem rest sh htl).1) hnd.1
      · have hm' : name ∈ rest.map Prod.fst := hm.resolve_left hnk
        obtain ⟨ih1, ih2⟩ := ih hnd.2 name hm'
        refine ⟨?_, ?_⟩
        · simp only [List.map_cons, List.filter_cons]
          rw [if_neg (by simp [mkTab]; exact fun h => hnk h.symm)]
          exact ih1
        · intro sh hsh hti
          rcases List.mem_cons.1 hsh with hhd | htl
          · subst hhd
            exact absurd hti.symm hnk
          · rw [ih2 sh htl hti]
            simp only [lookupKey]
            rw [if_neg (fun h => hnk h.symm)]

/-- Claim C5: in create mode, every report name of the accumulator gets
exactly one tab in the single creation payload, with that title, a frozen
first row (`FrozenRowCount = 1`) and a grid pre-populated with the
report's styled rows; the overall spreadsheet title embeds the run's
since date. -/
theorem create_mode_spreadsheet (start : Date) (rowData : Acc)
    (hnd : (rowData.map Prod.fst).Nodup) (name : String)
    (hm : name ∈ rowData.map Prod.fst) :
    (((createSheet start rowData).sheets.filter (fun sh => sh.title = name)).length = 1) ∧
    (∀ sh ∈ (createSheet start rowData).sheets, sh.title = name →
      sh.frozenRowCount = 1 ∧ sh.data = [⟨(lookupKey rowData name).getD []⟩]) ∧
    (∃ a b, (createSheet start rowData).title = a ++ formatDate start ++ b) := by
  obtain ⟨h1, h2⟩ := createSheet_unique rowData hnd name hm
  exact ⟨h1,
    fun sh hsh hti => ⟨(mkTab_title_mem rowData sh hsh).2, h2 sh hsh hti⟩,
    "Work Stats (as of ", ")", rfl⟩

/-- Witness for C5 at a two-report accumulator. -/
theorem create_mode_spreadsheet_witness :
    (((createSheet ⟨1, 2, 2020⟩ [("go-issues", []), ("go-cls", [])]).sheets.filter
        (fun sh => sh.title = "go-issues")).length = 1) ∧
    (∀ sh ∈ (createSheet ⟨1, 2, 2020⟩ [("go-issues", []), ("go-cls", [])]).sheets,
      sh.title = "go-issues" →
      sh.frozenRowCount = 1 ∧
        sh.data = [⟨(lookupKey [("go-issues", []), ("go-cls", [])] "go-issues").getD []⟩]) ∧
    (∃ a b, (createSheet ⟨1, 2, 2020⟩ [("go-issues", []), ("go-cls", [])]).title
      = a ++ formatDate ⟨1, 2, 2020⟩ ++ b) :=
  create_mode_spreadsheet ⟨1, 2, 2020⟩ [("go-issues", []), ("go-cls", [])]
    (by decide) "go-issues" (by decide)

/-- Claim C1 is false on the code: appending an accumulator holding exactly
one report (`github-issues`, 3 rows) to a spreadsheet with one
pre-existing tab (`Sheet1`, id 0) issues a data batch with TWO
`AppendCells` requests, one of which targets the pre-existing tab —
the phase-2 loop ranges over every sheet of the updated spreadsheet, so
the claim's "no append request is issued for any pre-existing tab" fails. -/
theorem append_preexisting_counterexample :
    (((appendToSheet [("github-issues", buildRowData [["a"], ["1"], ["Total"]])]
        ⟨[⟨"Sheet1", 0⟩], 1⟩).calls.getD 1 []).length = 2) ∧
    SRequest.appendCells 0 [] "*"
      ∈ ((appendToSheet [("github-issues", buildRowData [["a"], ["1"], ["Total"]])]
        ⟨[⟨"Sheet1", 0⟩], 1⟩).calls.getD 1 []) :=
  ⟨rfl, by decide⟩

/-- Claim C1 (amended): in append mode with an accumulator holding exactly
one report whose title is not already a tab of the target spreadsheet,
exactly two batch calls are issued, in order: first a batch with exactly
one `AddSheet` request (frozen header row); then — built from the response
of the first — a batch with one `AppendCells` per tab of the updated
spreadsheet: every pre-existing tab receives an `AppendCells` with an
empty row payload, and the newly created tab receives one referencing its
server-assigned identifier (`st.nextId`) and carrying the report's styled
rows. -/
theorem append_two_phase (st : Server) (title : String) (rows : List RowData)
    (h : title ∉ st.sheets.map SSheet.title) :
    (appendToSheet [(title, rows)] st).calls =
      [[SRequest.addSheet title 1],
       st.sheets.map (fun sh => SRequest.appendCells sh.sheetId [] "*")
         ++ [SRequest.appendCells st.nextId rows "*"]] := by
  simp only [appendToSheet, batchUpdate, List.map_cons, List.map_nil,
    List.foldl_cons, List.foldl_nil, applyRequest, List.map_append]
  refine congrArg₂ _ rfl (congrArg₂ _ (congrArg₂ _ ?_ ?_) rfl)
  · refine List.map_congr_left (fun sh hsh => ?_)
    have hne : title ≠ sh.title := by
      intro he
      exact h (he ▸ List.mem_map_of_mem SSheet.title hsh)
    simp [lookupKey, hne]
  · simp [lookupKey]

/-- Witness for C1 (amended) at a one-tab server. -/
theorem append_two_phase_witness :
    (appendToSheet [("github-issues", [])] ⟨[⟨"Sheet1", 0⟩], 1⟩).calls =
      [[SRequest.addSheet "github-issues" 1],
       ([⟨"Sheet1", 0⟩] : List SSheet).map (fun sh => SRequest.appendCells sh.sheetId [] "*")
         ++ [SRequest.appendCells 1 [] "*"]] :=
  append_two_phase ⟨[⟨"Sheet1", 0⟩], 1⟩ "github-issues" [] (by decide)

/-- Claim C3 documents intent the code misses: on a reference that is
neither `""` nor `"new"` and where the identifier pattern does not match,
the code indexes the nil `FindStringSubmatch` result (`match[1]`) and
panics with an index-out-of-range runtime error; the clean
`log.Fatalf("Unable to determine spreadsheet ID ...")` diagnostic below it
— the behavior the claim states — is unreachable on that path. -/
theorem locator_nomatch_panics :
    parseSheetsFlag "https://docs.google.com/foo" = .panicked ∧
    ∀ msg, parseSheetsFlag "https://docs.google.com/foo" ≠ .fatalError msg := by
  refine ⟨by decide, fun msg h => ?_⟩
  rw [show parseSheetsFlag "https://docs.google.com/foo" = .panicked from by decide] at h
  cases h

theorem dropLit_append (p s : List Char) : dropLit p (p ++ s) = some s := by
  induction p with
  | nil => rfl
  | cons c cs ih => simp [dropLit, ih]

theorem takeIDRun_append (a : List Char) (d : Char) (s : List Char)
    (ha : ∀ c ∈ a, isIDChar c = true) (hd : isIDChar d = false) :
    takeIDRun (a ++ d :: s) = a := by
  induction a with
  | nil => simp [takeIDRun, hd]
  | cons c cs ih =>
      simp only [List.cons_append, takeIDRun]
      rw [if_pos (ha c (List.mem_cons_self c cs))]
      show c :: takeIDRun (cs ++ d :: s) = c :: cs
      rw [ih (fun x hx => ha x (List.mem_cons_of_mem c hx))]

theorem findIDMatch_cons (c : Char) (cs : List Char) :
    findIDMatch (c :: cs) =
      match dropLit "/spreadsheets/d/".data (c :: cs) with
      | some rest =>
          if (takeIDRun rest).isEmpty then findIDMatch cs else some (takeIDRun rest)
      | none => findIDMatch cs := by
  simp only [findIDMatch]

theorem findIDMatch_full (id : List Char) (hne : id ≠ [])
    (hid : ∀ c ∈ id, isIDChar c = true) :
    findIDMatch ("/spreadsheets/d/".data ++ (id ++ ['/'])) = some id := by
  cases id with
  | nil => exact absurd rfl hne
  | cons c0 rest =>
      have h1 : "/spreadsheets/d/".data ++ ((c0 :: rest) ++ ['/'])
          = '/' :: ("spreadsheets/d/".data ++ ((c0 :: rest) ++ ['/'])) := rfl
      rw [h1, findIDMatch_cons, ← h1, dropLit_append]
      have htake : takeIDRun (c0 :: (rest ++ ['/'])) = c0 :: rest := by
        have h2 := takeIDRun_append (c0 :: rest) '/' [] hid (by decide)
        simpa using h2
      simp [htake]

theorem trimPrefix_append (p s : List Char) : trimPrefix (p ++ s) p = s := by
  simp [trimPrefix, List.isPrefixOf_iff_prefix, List.prefix_append, List.drop_left]

theorem trimSuffix_append (a suf : List Char) : trimSuffix (a ++ suf) suf = a := by
  simp only [trimSuffix, List.isSuffixOf_iff_suffix, List.suffix_append, if_pos,
    List.length_append]
  rw [Nat.add_sub_cancel]
  exact List.take_left a suf

theorem parse_url_existing (id : String) (hne : id ≠ "")
    (hid : ∀ c ∈ id.data, isIDChar c = true) :
    parseSheetsFlag ("https://docs.google.com/spreadsheets/d/" ++ id ++ "/edit#gid=0")
      = .existing id := by
  have hdata : ("https://docs.google.com/spreadsheets/d/" ++ id ++ "/edit#gid=0").data
      = "https://docs.google.com".data
        ++ (("/spreadsheets/d/".data ++ (id.data ++ ['/'])) ++ "edit#gid=0".data) := by
    rw [String.data_append, String.data_append,
      show ("https://docs.google.com/spreadsheets/d/" : String).data
        = "https://docs.google.com".data ++ "/spreadsheets/d/".data from by decide]
    simp [List.append_assoc]
  have hdne : id.data ≠ [] := by
    intro h
    exact hne (by
      have := congrArg String.mk h
      simpa using this)
  have hurlne : ("https://docs.google.com/spreadsheets/d/" ++ id ++ "/edit#gid=0") ≠ "" := by
    intro h
    have h2 := congrArg String.data h
    rw [hdata] at h2
    cases h2
  have hurlnew : ("https://docs.google.com/spreadsheets/d/" ++ id ++ "/edit#gid=0") ≠ "new" := by
    intro h
    have h2 := congrArg String.data h
    rw [hdata] at h2
    cases h2
  unfold parseSheetsFlag
  rw [if_neg hurlne, if_neg hurlnew, hdata, trimPrefix_append, trimSuffix_append]
  simp only [findIDMatch_full id.data hdne hid]
  have hmk : ({ data := id.data } : String) = id := rfl
  rw [hmk, if_neg hne]

/-- Claim C4: the locator maps `""` to Absent (remote sink skipped),
`"new"` to New, and a well-formed URL
`https://docs.google.com/spreadsheets/d/<id>/edit#gid=0` (nonempty `id`
over `[a-zA-Z0-9-_]`) to Existing with exactly that identifier; in
particular the URL with identifier `ABC123xyz_-` parses to
`Existing "ABC123xyz_-"`. -/
theorem locator_parse (id : String) (hne : id ≠ "")
    (hid : ∀ c ∈ id.data, isIDChar c = true) :
    parseSheetsFlag "" = .absent ∧
    parseSheetsFlag "new" = .newSheet ∧
    parseSheetsFlag ("https://docs.google.com/spreadsheets/d/" ++ id ++ "/edit#gid=0")
      = .existing id ∧
    parseSheetsFlag "https://docs.google.com/spreadsheets/d/ABC123xyz_-/edit#gid=0"
      = .existing "ABC123xyz_-" :=
  ⟨rfl, by decide, parse_url_existing id hne hid, by decide⟩

/-- Witness for C4 at the identifier `ABC123xyz_-`. -/
theorem locator_parse_witness :
    parseSheetsFlag "" = .absent ∧
    parseSheetsFlag "new" = .newSheet ∧
    parseSheetsFlag ("https://docs.google.com/spreadsheets/d/" ++ "ABC123xyz_-" ++ "/edit#gid=0")
      = .existing "ABC123xyz_-" ∧
    parseSheetsFlag "https://docs.google.com/spreadsheets/d/ABC123xyz_-/edit#gid=0"
      = .existing "ABC123xyz_-" :=
  locator_parse "ABC123xyz_-" (by decide) (by decide)

theorem mem_escapeQuotes (c : Char) (f : List Char) (h : c ∈ escapeQuotes f) :
    c ∈ f ∨ c = '"' := by
  induction f with
  | nil => cases h
  | cons d rest ih =>
      by_cases hd : d = '"'
      · subst hd
        simp only [escapeQuotes, if_true, List.mem_cons, reduceIte] at h
        rcases h with h | h | h
        · exact Or.inr h
        · exact Or.inr h
        · rcases ih h with h2 | h2
          · exact Or.inl (List.mem_cons_of_mem _ h2)
          · exact Or.inr h2
      · simp only [escapeQuotes, if_neg hd, List.mem_cons] at h
        rcases h with h | h
        · exact Or.inl (h ▸ List.mem_cons_self d rest)
        · rcases ih h with h2 | h2
          · exact Or.inl (List.mem_cons_of_mem _ h2)
          · exact Or.inr h2

theorem mem_writeField (c : Char) (f : List Char) (h : c ∈ writeField f) :
    c ∈ f ∨ c = '"' := by
  unfold writeField at h
  by_cases hq : needsQuotes f
  · rw [if_pos hq] at h
    rcases List.mem_cons.1 h with h2 | h2
    · exact Or.inr h2
    · rcases List.mem_append.1 h2 with h3 | h3
      · exact mem_escapeQuotes c f h3
      · exact Or.inr (List.mem_singleton.1 h3)
  · rw [if_neg hq] at h
    exact Or.inl h

theorem mem_writeFieldsRest (c : Char) (l : List String) (h : c ∈ writeFieldsRest l) :
    (∃ s ∈ l, c ∈ s.data) ∨ c = '"' ∨ c = ',' := by
  induction l with
  | nil => cases h
  | cons s rest ih =>
      simp only [writeFieldsRest, List.mem_cons, List.mem_append] at h
      rcases h with h | ⟨h | h⟩
      · exact Or.inr (Or.inr h)
      · rcases mem_writeField c s.data h with h2 | h2
        · exact Or.inl ⟨s, List.mem_cons_self s rest, h2⟩
        · exact Or.inr (Or.inl h2)
      · rcases ih h with ⟨s2, hs2, hc2⟩ | h2
        · exact Or.inl ⟨s2, List.mem_cons_of_mem _ hs2, hc2⟩
        · exact Or.inr h2

theorem mem_writeRecord (c : Char) (row : List String) (h : c ∈ writeRecord row) :
    (∃ s ∈ row, c ∈ s.data) ∨ c = '"' ∨ c = ',' ∨ c = '\n' := by
  unfold writeRecord at h
  cases row with
  | nil =>
      simp only [List.nil_append] at h
      exact Or.inr (Or.inr (Or.inr (List.mem_singleton.1 h)))
  | cons s rest =>
      rcases List.mem_append.1 h with h2 | h2
      · rcases List.mem_append.1 h2 with h3 | h3
        · rcases mem_writeField c s.data h3 with h4 | h4
          · exact Or.inl ⟨s, List.mem_cons_self s rest, h4⟩
          · exact Or.inr (Or.inl h4)
        · rcases mem_writeFieldsRest c rest h3 with ⟨s2, hs2, hc2⟩ | h4
          · exact Or.inl ⟨s2, List.mem_cons_of_mem _ hs2, hc2⟩
          · rcases h4 with h4 | h4
            · exact Or.inr (Or.inl h4)
            · exact Or.inr (Or.inr (Or.inl h4))
      · exact Or.inr (Or.inr (Or.inr (List.mem_singleton.1 h2)))

theorem csvWrite_no_cr (t : List (List String))
    (hcr : ∀ r ∈ t, ∀ s ∈ r, '\r' ∉ s.data) : '\r' ∉ csvWrite t := by
  intro h
  unfold csvWrite at h
  rw [List.mem_flatten] at h
  obtain ⟨l, hl, hc⟩ := h
  rw [List.mem_map] at hl
  obtain ⟨row, hrow, rfl⟩ := hl
  rcases mem_writeRecord _ _ hc with ⟨s, hs, hcs⟩ | h | h | h
  · exact hcr row hrow s hs hcs
  · exact absurd h (by decide)
  · exact absurd h (by decide)
  · exact absurd h (by decide)

theorem normalizeCRLF_no_cr (l : List Char) (h : '\r' ∉ l) : normalizeCRLF l = l := by
  induction l with
  | nil => rfl
  | cons c rest ih =>
      cases rest with
      | nil => rfl
      | cons c2 rest2 =>
          have hc : ¬(c = '\r' ∧ c2 = '\n') := by
            intro ⟨h1, _⟩
            exact h (h1 ▸ List.mem_cons_self c (c2 :: rest2))
          simp only [normalizeCRLF, if_neg hc]
          rw [ih (fun h2 => h (List.mem_cons_of_mem c h2))]

theorem runCSV_step (st : CSVState) (c : Char) (rest : List Char) (st2 : CSVState)
    (h : csvStep st c = some st2) : runCSV st (c :: rest) = runCSV st2 rest := by
  have h0 : runCSV st (c :: rest)
      = match csvStep st c with | none => none | some s => runCSV s rest := rfl
  rw [h0, h]

theorem csvStep_fs_quote (T : List (List String)) (R : List String) (g : List Char) :
    csvStep ⟨T, R, g, .fieldStart⟩ '"' = some ⟨T, R, [], .quoted⟩ := rfl

theorem csvStep_fs_comma (T : List (List String)) (R : List String) (g : List Char) :
    csvStep ⟨T, R, g, .fieldStart⟩ ',' = some ⟨T, R ++ [""], [], .fieldStart⟩ := rfl

theorem csvStep_fs_newline (T : List (List String)) (R : List String) (g : List Char)
    (hR : R ≠ []) :
    csvStep ⟨T, R, g, .fieldStart⟩ '\n' = some ⟨T ++ [R ++ [""]], [], [], .fieldStart⟩ := by
  cases R with
  | nil => exact absurd rfl hR
  | cons a as => rfl

theorem csvStep_fs_other (T : List (List String)) (R : List String) (g : List Char)
    (c : Char) (h1 : c ≠ '"') (h2 : c ≠ ',') (h3 : c ≠ '\n') :
    csvStep ⟨T, R, g, .fieldStart⟩ c = some ⟨T, R, [c], .unquoted⟩ := by
  simp only [csvStep, if_neg h1, if_neg h2, if_neg h3]

theorem csvStep_unq_comma (T : List (List String)) (R : List String) (g : List Char) :
    csvStep ⟨T, R, g, .unquoted⟩ ','
      = some ⟨T, R ++ [String.mk g], [], .fieldStart⟩ := rfl

theorem csvStep_unq_newline (T : List (List String)) (R : List String) (g : List Char) :
    csvStep ⟨T, R, g, .unquoted⟩ '\n'
      = some ⟨T ++ [R ++ [String.mk g]], [], [], .fieldStart⟩ := rfl

theorem csvStep_unq_other (T : List (List String)) (R : List String) (g : List Char)
    (c : Char) (h1 : c ≠ '"') (h2 : c ≠ ',') (h3 : c ≠ '\n') :
    csvStep ⟨T, R, g, .unquoted⟩ c = some ⟨T, R, g ++ [c], .unquoted⟩ := by
  simp only [csvStep, if_neg h1, if_neg h2, if_neg h3]

theorem csvStep_q_quote (T : List (List String)) (R : List String) (g : List Char) :
    csvStep ⟨T, R, g, .quoted⟩ '"' = some ⟨T, R, g, .postQuote⟩ := rfl

theorem csvStep_q_other (T : List (List String)) (R : List String) (g : List Char)
    (c : Char) (h1 : c ≠ '"') :
    csvStep ⟨T, R, g, .quoted⟩ c = some ⟨T, R, g ++ [c], .quoted⟩ := by
  simp only [csvStep, if_neg h1]

theorem csvStep_pq_quote (T : List (List String)) (R : List String) (g : List Char) :
    csvStep ⟨T, R, g, .postQuote⟩ '"' = some ⟨T, R, g ++ ['"'], .quoted⟩ := rfl

theorem csvStep_pq_comma (T : List (List String)) (R : List String) (g : List Char) :
    csvStep ⟨T, R, g, .postQuote⟩ ','
      = some ⟨T, R ++ [String.mk g], [], .fieldStart⟩ := rfl

theorem csvStep_pq_newline (T : List (List String)) (R : List String) (g : List Char) :
    csvStep ⟨T, R, g, .postQuote⟩ '\n'
      = some ⟨T ++ [R ++ [String.mk g]], [], [], .fieldStart⟩ := rfl

theorem runCSV_unquoted_consume (f : List Char)
    (hf : ∀ ch ∈ f, ¬(ch = ',' ∨ ch = '"' ∨ ch = '\n')) :
    ∀ (T : List (List String)) (R : List String) (g : List Char) (rest : List Char),
    runCSV ⟨T, R, g, .unquoted⟩ (f ++ rest) = runCSV ⟨T, R, g ++ f, .unquoted⟩ rest := by
  induction f with
  | nil => intro T R g rest; simp
  | cons c f2 ih =>
      intro T R g rest
      have hc := hf c (List.mem_cons_self c f2)
      push_neg at hc
      rw [List.cons_append,
        runCSV_step _ _ _ _ (csvStep_unq_other T R g c hc.2.1 hc.1 hc.2.2),
        ih (fun ch hm => hf ch (List.mem_cons_of_mem c hm)) T R (g ++ [c]) rest]
      have h3 : g ++ [c] ++ f2 = g ++ c :: f2 := by simp
      rw [h3]

theorem runCSV_quoted_consume (f : List Char) :
    ∀ (T : List (List String)) (R : List String) (g : List Char) (rest : List Char),
    runCSV ⟨T, R, g, .quoted⟩ (escapeQuotes f ++ rest)
      = runCSV ⟨T, R, g ++ f, .quoted⟩ rest := by
  induction f with
  | nil => intro T R g rest; simp [escapeQuotes]
  | cons c f2 ih =>
      intro T R g rest
      by_cases hc : c = '"'
      · subst hc
        have hunf : escapeQuotes ('"' :: f2) = '"' :: '"' :: escapeQuotes f2 := by
          simp [escapeQuotes]
        rw [hunf, List.cons_append, List.cons_append,
          runCSV_step _ _ _ _ (csvStep_q_quote T R g),
          runCSV_step _ _ _ _ (csvStep_pq_quote T R g),
          ih T R (g ++ ['"']) rest]
        have h3 : g ++ ['"'] ++ f2 = g ++ '"' :: f2 := by simp
        rw [h3]
      · have hunf : escapeQuotes (c :: f2) = c :: escapeQuotes f2 := by
          simp [escapeQuotes, hc]
        rw [hunf, List.cons_append,
          runCSV_step _ _ _ _ (csvStep_q_other T R g c hc),
          ih T R (g ++ [c]) rest]
        have h3 : g ++ [c] ++ f2 = g ++ c :: f2 := by simp
        rw [h3]

theorem needsQuotes_false_chars (f : List Char) (hq : needsQuotes f = false) :
    ∀ ch ∈ f, ¬(ch = ',' ∨ ch = '"' ∨ ch = '\n') := by
  intro ch hm hbad
  cases f with
  | nil => cases hm
  | cons c rest =>
      simp only [needsQuotes, Bool.or_eq_false_iff, List.any_eq_false] at hq
      have h2 := hq.1 ch hm
      simp only [Bool.or_eq_true, beq_iff_eq, not_or] at h2
      rcases hbad with h | h | h
      · exact h2.1.1.1 h
      · exact h2.1.1.2 h
      · exact h2.2 h

theorem runCSV_field_comma (f : List Char) (T : List (List String)) (R : List String)
    (rest : List Char) :
    runCSV ⟨T, R, [], .fieldStart⟩ (writeField f ++ (',' :: rest))
      = runCSV ⟨T, R ++ [String.mk f], [], .fieldStart⟩ rest := by
  unfold writeField
  by_cases hq : needsQuotes f
  · rw [if_pos hq]
    have hsplit : ('"' :: (escapeQuotes f ++ ['"'])) ++ (',' :: rest)
        = '"' :: (escapeQuotes f ++ ('"' :: ',' :: rest)) := by
      simp
    rw [hsplit, runCSV_step _ _ _ _ (csvStep_fs_quote T R []),
      runCSV_quoted_consume f T R [],
      runCSV_step _ _ _ _ (csvStep_q_quote T R ([] ++ f)),
      runCSV_step _ _ _ _ (csvStep_pq_comma T R ([] ++ f))]
    rw [List.nil_append]
  · rw [if_neg hq]
    cases f with
    | nil =>
        rw [List.nil_append, runCSV_step _ _ _ _ (csvStep_fs_comma T R [])]
    | cons c f2 =>
        have hq2 : needsQuotes (c :: f2) = false := by simpa using hq
        have hchars := needsQuotes_false_chars (c :: f2) hq2
        have hc := hchars c (List.mem_cons_self c f2)
        push_neg at hc
        rw [List.cons_append,
          runCSV_step _ _ _ _ (csvStep_fs_other T R [] c hc.2.1 hc.1 hc.2.2),
          runCSV_unquoted_consume f2
            (fun ch hm => hchars ch (List.mem_cons_of_mem c hm)) T R [c] (',' :: rest),
          runCSV_step _ _ _ _ (csvStep_unq_comma T R ([c] ++ f2))]
        rw [List.singleton_append]

theorem runCSV_field_newline (f : List Char) (T : List (List String)) (R : List String)
    (rest : List Char) (hnb : R ≠ [] ∨ f ≠ []) :
    runCSV ⟨T, R, [], .fieldStart⟩ (writeField f ++ ('\n' :: rest))
      = runCSV ⟨T ++ [R ++ [String.mk f]], [], [], .fieldStart⟩ rest := by
  unfold writeField
  by_cases hq : needsQuotes f
  · rw [if_pos hq]
    have hsplit : ('"' :: (escapeQuotes f ++ ['"'])) ++ ('\n' :: rest)
        = '"' :: (escapeQuotes f ++ ('"' :: '\n' :: rest)) := by
      simp
    rw [hsplit, runCSV_step _ _ _ _ (csvStep_fs_quote T R []),
      runCSV_quoted_consume f T R [],
      runCSV_step _ _ _ _ (csvStep_q_quote T R ([] ++ f)),
      runCSV_step _ _ _ _ (csvStep_pq_newline T R ([] ++ f))]
    rw [List.nil_append]
  · rw [if_neg hq]
    cases f with
    | nil =>
        have hR : R ≠ [] := by
          rcases hnb with h | h
          · exact h
          · exact absurd rfl h
        rw [List.nil_append, runCSV_step _ _ _ _ (csvStep_fs_newline T R [] hR)]
    | cons c f2 =>
        have hq2 : needsQuotes (c :: f2) = false := by simpa using hq
        have hchars := needsQuotes_false_chars (c :: f2) hq2
        have hc := hchars c (List.mem_cons_self c f2)
        push_neg at hc
        rw [List.cons_append,
          runCSV_step _ _ _ _ (csvStep_fs_other T R [] c hc.2.1 hc.1 hc.2.2),
          runCSV_unquoted_consume f2
            (fun ch hm => hchars ch (List.mem_cons_of_mem c hm)) T R [c] ('\n' :: rest),
          runCSV_step _ _ _ _ (csvStep_unq_newline T R ([c] ++ f2))]
        rw [List.singleton_append]

theorem runCSV_fields (fs : List String) :
    ∀ (f : String) (T : List (List String)) (R : List String) (rest : List Char),
    (R ≠ [] ∨ f ≠ "" ∨ fs ≠ []) →
    runCSV ⟨T, R, [], .fieldStart⟩ ((writeField f.data ++ writeFieldsRest fs) ++ ('\n' :: rest))
      = runCSV ⟨T ++ [R ++ (f :: fs)], [], [], .fieldStart⟩ rest := by
  induction fs with
  | nil =>
      intro f T R rest hnb
      have hnb2 : R ≠ [] ∨ f.data ≠ [] := by
        rcases hnb with h | h | h
        · exact Or.inl h
        · refine Or.inr (fun hd => h ?_)
          have := congrArg String.mk hd
          simpa using this
        · exact absurd rfl h
      simp only [writeFieldsRest, List.append_nil]
      rw [runCSV_field_newline f.data T R rest hnb2]
  | cons s fs' ih =>
      intro f T R rest hnb
      simp only [writeFieldsRest]
      have hsplit : (writeField f.data ++ (',' :: (writeField s.data ++ writeFieldsRest fs')))
            ++ ('\n' :: rest)
          = writeField f.data
            ++ (',' :: ((writeField s.data ++ writeFieldsRest fs') ++ ('\n' :: rest))) := by
        simp [List.append_assoc]
      rw [hsplit, runCSV_field_comma f.data T R,
        ih s T (R ++ [String.mk f.data]) rest (Or.inl (by simp))]
      have hassoc : (R ++ [String.mk f.data]) ++ (s :: fs') = R ++ (f :: s :: fs') := by
        simp [List.append_assoc]
      rw [hassoc]

theorem runCSV_record (row : List String) (h1 : row ≠ []) (h2 : row ≠ [""])
    (T : List (List String)) (rest : List Char) :
    runCSV ⟨T, [], [], .fieldStart⟩ (writeRecord row ++ rest)
      = runCSV ⟨T ++ [row], [], [], .fieldStart⟩ rest := by
  cases row with
  | nil => exact absurd rfl h1
  | cons f fs =>
      unfold writeRecord
      have hsplit : ((writeField f.data ++ writeFieldsRest fs) ++ ['\n']) ++ rest
          = (writeField f.data ++ writeFieldsRest fs) ++ ('\n' :: rest) := by
        simp [List.append_assoc]
      rw [hsplit, runCSV_fields fs f T [] rest ?_]
      · rfl
      · by_cases hfs : fs = []
        · subst hfs
          refine Or.inr (Or.inl (fun hf => h2 ?_))
          rw [hf]
        · exact Or.inr (Or.inr hfs)

theorem runCSV_table (t : List (List String)) (h : ∀ r ∈ t, r ≠ [] ∧ r ≠ [""]) :
    ∀ T, runCSV ⟨T, [], [], .fieldStart⟩ (csvWrite t) = some (T ++ t) := by
  induction t with
  | nil => intro T; simp [csvWrite, runCSV, csvFinalize]
  | cons row rest ih =>
      intro T
      have hr := h row (List.mem_cons_self row rest)
      have hstep : csvWrite (row :: rest) = writeRecord row ++ csvWrite rest := by
        simp [csvWrite]
      rw [hstep, runCSV_record row hr.1 hr.2 T _,
        ih (fun r hm => h r (List.mem_cons_of_mem row hm)) (T ++ [row])]
      simp

theorem sameLengths_of_rect (t : List (List String)) (w : Nat)
    (hrect : ∀ r ∈ t, r.length = w) : sameLengths t = true := by
  cases t with
  | nil => rfl
  | cons r rs =>
      simp only [sameLengths, List.all_eq_true]
      intro r2 h2
      rw [hrect r2 (List.mem_cons_of_mem r h2), hrect r (List.mem_cons_self r rs)]
      simp

/-- Claim C7 fails for a report with a zero-cell row (a shape the data
model explicitly allows): the writer emits a blank line for it, and
standard CSV parsing skips blank lines, so the row is lost and the
round-trip is not the identity. -/
theorem csv_roundtrip_counterexample :
    csvRead (csvWrite [[]]) = some [] ∧
    (some [] : Option (List (List String))) ≠ some [[]] := by
  exact ⟨rfl, by simp⟩

/-- Claim C7 (amended): for every rectangular report whose rows are all
nonempty and not the single empty cell (so no row serializes to a blank
line, which standard CSV parsing skips) and whose cells contain no
carriage return (which the standard reader would normalize away inside
`\r\n`), writing through the flat-file sink and re-reading with standard
CSV parsing yields the identical table — in particular the concrete 3×2
report of the claim round-trips. -/
theorem csv_roundtrip (t : List (List String)) (w : Nat)
    (hrect : ∀ r ∈ t, r.length = w)
    (hrow : ∀ r ∈ t, r ≠ [] ∧ r ≠ [""])
    (hcr : ∀ r ∈ t, ∀ s ∈ r, '\r' ∉ s.data) :
    csvRead (csvWrite t) = some t := by
  unfold csvRead csvInit
  rw [normalizeCRLF_no_cr _ (csvWrite_no_cr t hcr), runCSV_table t hrow []]
  simp [sameLengths_of_rect t w hrect]

/-- Witness for C7 (amended) at the claim's concrete 3×2 report. -/
theorem csv_roundtrip_witness :
    csvRead (csvWrite [["A", "B"], ["1", "2"], ["Total", "3"]])
      = some [["A", "B"], ["1", "2"], ["Total", "3"]] :=
  csv_roundtrip [["A", "B"], ["1", "2"], ["Total", "3"]] 2
    (by decide) (by decide) (by decide)

end WorkStats
